import Mathlib

/-!
Shallow embedding of the two utilities of
`terraform-aws-org-new-account-delete-default-vpcs`:

* `src/delete_default_vpc.py` — assume a role in a target account, enumerate
  regions, and for every default VPC delete its internet gateways, subnets,
  route tables, network ACLs, security groups and finally the VPC itself,
  collecting per-step error strings instead of aborting.
* `scripts/create_default_vpc/create_default_vpc.py` — assume a role,
  enumerate regions, and create a default VPC in every region that has none.

Pure data (lists of resources, error strings) models the AWS objects the code
reads; AWS calls that can raise are modelled by `Except` values supplied as
parameters, so theorems quantify over every possible outcome of the calls.
-/

namespace DeleteDefaultVpc

/-- Model of one entry of a route table's `associations_attribute`, keeping
the two keys `del_rtb` reads: the `Main` flag and the `RouteTableId`. -/
structure RtbAssoc where
  main : Bool
  routeTableId : String
deriving Repr, DecidableEq

/-- Model of an EC2 route table as seen by `del_rtb`. -/
structure RouteTable where
  rtbId : String
  associationsAttribute : List RtbAssoc
deriving Repr, DecidableEq

/-- Model of an EC2 subnet as seen by `del_sub`. -/
structure Subnet where
  subnetId : String
  defaultForAz : Bool
deriving Repr, DecidableEq

/-- Model of an EC2 network ACL as seen by `del_acl`. -/
structure NetworkAcl where
  aclId : String
  isDefault : Bool
deriving Repr, DecidableEq

/-- Model of an EC2 security group as seen by `del_sgp`. -/
structure SecurityGroup where
  sgpId : String
  groupName : String
deriving Repr, DecidableEq

/-- Model of an EC2 internet gateway as seen by `del_igw`. -/
structure InternetGateway where
  igwId : String
deriving Repr, DecidableEq

/-- Model of an EC2 VPC resource together with the collections the delete
utility iterates over. -/
structure Vpc where
  vpcId : String
  isDefault : Bool
  igws : List InternetGateway
  subnets : List Subnet
  routeTables : List RouteTable
  acls : List NetworkAcl
  securityGroups : List SecurityGroup
deriving Repr, DecidableEq

/-- Python runtime errors the embedded code can raise by itself. -/
inductive PyErr where
  | indexError
  | keyError
deriving Repr, DecidableEq

/-- Translation of `del_igw`: detach and delete every internet gateway of the
VPC.  The result is the trace of gateway ids whose delete is invoked. -/
def del_igw (v : Vpc) : List String :=
  v.igws.map (fun g => g.igwId)

/-- Translation of `del_sub`: delete the subnets with `default_for_az` set.
The result is the trace of subnet ids whose delete is invoked. -/
def del_sub (v : Vpc) : List String :=
  (v.subnets.filter (fun s => s.defaultForAz)).map (fun s => s.subnetId)

/-- Translation of the list comprehension inside `del_rtb`'s loop body:
`[rtb_ass[0]["RouteTableId"] for rtb_ass in assoc_attr if rtb_ass[0]["Main"]]`.
Indexing `rtb_ass[0]` raises `IndexError` when an association list is empty;
otherwise the result collects the first association's route table id whenever
its `Main` flag is set. -/
def mainAssocIds : List (List RtbAssoc) → Except PyErr (List String)
  | [] => Except.ok []
  | ([] :: _) => Except.error PyErr.indexError
  | ((a :: _) :: rest) => do
      let tail ← mainAssocIds rest
      if a.main then pure (a.routeTableId :: tail) else pure tail

/-- Loop of `del_rtb`: the guard list `mains` is recomputed each iteration but
does not depend on the loop variable, so it is passed in once.  A route table
is deleted exactly when the guard list is empty; a nonempty guard hits the
`continue`. -/
def delRtbLoop (mains : Except PyErr (List String)) :
    List RouteTable → Except PyErr (List String)
  | [] => Except.ok []
  | rtb :: rest => do
      let ids ← mains
      let tail ← delRtbLoop mains rest
      if ids.isEmpty then pure (rtb.rtbId :: tail) else pure tail

/-- Translation of `del_rtb`.  For each route table the code evaluates the
comprehension over the first associations of ALL route tables of the VPC (the
comprehension variable shadows the loop variable), skips the table when that
list is nonempty, and deletes it otherwise.  The result is the trace of route
table ids whose delete is invoked, or the Python error raised. -/
def del_rtb (v : Vpc) : Except PyErr (List String) :=
  delRtbLoop (mainAssocIds (v.routeTables.map (fun r => r.associationsAttribute)))
    v.routeTables

/-- Translation of `del_acl`: delete every network ACL that is not the
default one.  The result is the trace of ACL ids whose delete is invoked. -/
def del_acl (v : Vpc) : List String :=
  (v.acls.filter (fun a => !a.isDefault)).map (fun a => a.aclId)

/-- Translation of `del_sgp`: delete every security group whose name is not
`default`.  The result is the trace of group ids whose delete is invoked. -/
def del_sgp (v : Vpc) : List String :=
  (v.securityGroups.filter (fun g => g.groupName != "default")).map
    (fun g => g.sgpId)

/-- Translation of `get_error_prefix` (renamed): the fixed header of every
error string. -/
def errorHeader (accountId region methodName : String) : String :=
  "Account: " ++ accountId ++ "\r Region: " ++ region ++ "\r Method: " ++ methodName

/-- Translation of `convert_exception_to_string`; `exception` stands for the
`str()` of the caught Python exception. -/
def convert_exception_to_string (accountId region methodName : String)
    (msg : Option String) (exception : String) : String :=
  let errorStr := errorHeader accountId region methodName
  let errorStr :=
    match msg with
    | some m => errorStr ++ "\r Error:" ++ m ++ "\r"
    | none => errorStr
  errorStr ++ "\r Exception:" ++ exception

/-- Translation of `process_exception`: it reads the account id and region out
of the `vpc` dict and converts the exception with no extra message. -/
def process_exception (accountId region methodName exception : String) : String :=
  convert_exception_to_string accountId region methodName none exception

/-- Translation of Python's `sep.join(xs)`. -/
def strJoin (sep : String) : List String → String
  | [] => ""
  | [s] => s
  | s :: rest => s ++ sep ++ strJoin sep rest

/-- The six teardown steps of `del_vpc_all`, in the code's own vocabulary. -/
inductive Step where
  | igw
  | sub
  | rtb
  | acl
  | sgp
  | vpc
deriving Repr, DecidableEq

/-- The order in which `del_vpc_all` runs its six `try` blocks. -/
def stepOrder : List Step :=
  [Step.igw, Step.sub, Step.rtb, Step.acl, Step.sgp, Step.vpc]

/-- Method name used by `process_exception` for each step. -/
def stepMethodName : Step → String
  | Step.igw => "del_igw"
  | Step.sub => "del_sub"
  | Step.rtb => "del_rtb"
  | Step.acl => "del_acl"
  | Step.sgp => "del_sgp"
  | Step.vpc => "del_vpc"

/-- Outcome of the AWS calls performed by one teardown step:
`Except.error s` models the step raising an exception whose `str()` is `s`. -/
abbrev StepOutcome := Step → Except String Unit

/-- Result of one `del_vpc_all` call: the steps attempted with their
outcomes, in execution order; the collected `exception_list`; and the overall
result (`Except.error` models the final `raise DeleteVPCError`, carrying the
string the exception renders to). -/
structure DelVpcAllResult where
  trace : List (Step × Except String Unit)
  exceptions : List String
  result : Except String Unit
deriving Repr

/-- One `try` block of `del_vpc_all`: an empty list when the step succeeds,
else the single processed error string appended to `exception_list`. -/
def tryStep (outcome : StepOutcome) (accountId region : String) (s : Step) :
    List String :=
  match outcome s with
  | Except.ok _ => []
  | Except.error exc => [process_exception accountId region (stepMethodName s) exc]

/-- Translation of `del_vpc_all`: the six steps are attempted unconditionally
in their fixed order, each inside its own `try`; afterwards, when any error
was collected, the joined message is raised as `DeleteVPCError` (whose `str()`
is exactly that message, which is what the caller later appends). -/
def del_vpc_all (outcome : StepOutcome) (accountId region vpcId : String) :
    DelVpcAllResult :=
  let excs :=
    tryStep outcome accountId region Step.igw ++
    tryStep outcome accountId region Step.sub ++
    tryStep outcome accountId region Step.rtb ++
    tryStep outcome accountId region Step.acl ++
    tryStep outcome accountId region Step.sgp ++
    tryStep outcome accountId region Step.vpc
  { trace := stepOrder.map (fun s => (s, outcome s))
    exceptions := excs
    result :=
      if excs.isEmpty then Except.ok ()
      else
        Except.error ("Exceptions for Account: " ++ accountId ++ " Region: "
          ++ region ++ " VPC: " ++ vpcId ++ ":\r" ++ strJoin "\r\r " excs) }

/-- One region as seen by `concurrently_delete_vpcs`: its name and the
outcome of `get_default_vpc_ids` there (`Except.error s` models the call
raising an exception rendering to `s`). -/
structure RegionFetch where
  region : String
  fetch : Except String (List String)
deriving Repr

/-- Error strings appended inside the region loop of
`concurrently_delete_vpcs` when fetching a region's default VPC ids raises:
the loop sets `vpc_ids = []`, records the converted string and moves on. -/
def fetchErrors (accountId : String) : List RegionFetch → List String
  | [] => []
  | rf :: rest =>
    (match rf.fetch with
     | Except.ok _ => []
     | Except.error exc =>
       [convert_exception_to_string accountId rf.region "lambda_handler"
         (some "Error: Error getting vpc resource") exc]) ++
    fetchErrors accountId rest

/-- The `(region, vpc_id)` pairs submitted to the executor, in submission
order: every id fetched for a region, regardless of what happened in other
regions.  (Building the `ec2.Vpc` object and submitting the future are pure
object constructions; their `except` branch is modelled as unreachable.) -/
def submittedTasks : List RegionFetch → List (String × String)
  | [] => []
  | rf :: rest =>
    (match rf.fetch with
     | Except.ok ids => ids.map (fun v => (rf.region, v))
     | Except.error _ => []) ++
    submittedTasks rest

/-- Resolution of the futures: `fut.result()` re-raises the
`DeleteVPCError` of a failed `del_vpc_all`, and the loop appends its `str()`
to the exception list and keeps going. -/
def futureErrors (vpcOutcome : String → String → StepOutcome)
    (accountId : String) : List (String × String) → List String
  | [] => []
  | t :: rest =>
    (match (del_vpc_all (vpcOutcome t.1 t.2) accountId t.1 t.2).result with
     | Except.ok _ => []
     | Except.error e => [e]) ++
    futureErrors vpcOutcome accountId rest

/-- Translation of `concurrently_delete_vpcs`: the exception list it returns,
region-loop errors first (in region order) then future errors (in submission
order). -/
def concurrently_delete_vpcs (vpcOutcome : String → String → StepOutcome)
    (accountId : String) (regions : List RegionFetch) : List String :=
  fetchErrors accountId regions ++
    futureErrors vpcOutcome accountId (submittedTasks regions)

/-- Tail of `main`: raise `DeleteVPCError` with the aggregate message when the
returned exception list is nonempty, else return normally. -/
def main_raise (exceptionList : List String) : Except String Unit :=
  if exceptionList.isEmpty then Except.ok ()
  else
    Except.error ("All Exceptions encountered:\r\r"
      ++ strJoin "\r\r " exceptionList ++ "\r\r")

/-- Translation of `main` after role assumption and region resolution: run
`concurrently_delete_vpcs` and raise on a nonempty exception list. -/
def main_run (vpcOutcome : String → String → StepOutcome) (accountId : String)
    (regions : List RegionFetch) : Except String Unit :=
  main_raise (concurrently_delete_vpcs vpcOutcome accountId regions)

/-- Fields of the lambda event dict that `parse_event` and its strategy
functions read; `none` models an absent key. -/
structure EventDetail where
  eventName : Option String
  regionName : Option String
  accountId : Option String
  createAccountId : Option String
  inviteTargetId : Option String
deriving Repr, DecidableEq

/-- Model of the lambda event: its `detail-type`, top-level `account` and
`detail` payload. -/
structure Event where
  detailType : String
  account : Option String
  detail : EventDetail
deriving Repr, DecidableEq

/-- Python dict indexing: `KeyError` when the key is absent. -/
def getOrKeyError : Option String → Except PyErr String
  | some s => Except.ok s
  | none => Except.error PyErr.keyError

/-- Translation of `get_new_account_id`. -/
def get_new_account_id (e : Event) : Except PyErr String :=
  getOrKeyError e.detail.createAccountId

/-- Translation of `get_invite_account_id`. -/
def get_invite_account_id (e : Event) : Except PyErr String :=
  getOrKeyError e.detail.inviteTargetId

/-- Translation of `get_enable_region_account_id`:
`event["detail"].get("accountId") or event["account"]` — a missing or falsy
(empty) `accountId` falls through to the top-level `account` key. -/
def get_enable_region_account_id (e : Event) : Except PyErr String :=
  match e.detail.accountId with
  | some a => if a = "" then getOrKeyError e.account else Except.ok a
  | none => getOrKeyError e.account

/-- Translation of `get_cloudtrail_event_name`. -/
def get_cloudtrail_event_name (e : Event) : Except PyErr String :=
  getOrKeyError e.detail.eventName

/-- Translation of `get_region_opt_in_regions`: the singleton list holding
the event's `regionName`. -/
def get_region_opt_in_regions (e : Event) : Except PyErr (List String) := do
  let r ← getOrKeyError e.detail.regionName
  pure [r]

/-- Parsed event data: the target account and the optional explicit region
list (`none` models Python's `None`). -/
structure EventData where
  accountId : String
  regions : Option (List String)
deriving Repr, DecidableEq

/-- Lookup in `parse_event`'s `event_name_strategy` dict followed by the
strategy call; a `detail-type` not in the dict raises `KeyError`. -/
def event_name_strategy (e : Event) : Except PyErr String :=
  if e.detailType = "AWS Service Event via CloudTrail" then
    get_cloudtrail_event_name e
  else if e.detailType = "Region Opt-In Status Change" then
    Except.ok "EnableOptInRegion"
  else Except.error PyErr.keyError

/-- Lookup in `parse_event`'s `account_id_strategy` dict followed by the
strategy call; an event name not in the dict raises `KeyError`. -/
def account_id_strategy (name : String) (e : Event) : Except PyErr String :=
  if name = "CreateAccountResult" then get_new_account_id e
  else if name = "InviteAccountToOrganization" then get_invite_account_id e
  else if name = "EnableOptInRegion" then get_enable_region_account_id e
  else Except.error PyErr.keyError

/-- Lookup in `parse_event`'s `regions_strategy` dict followed by the
strategy call; an event name not in the dict raises `KeyError`. -/
def regions_strategy (name : String) (e : Event) :
    Except PyErr (Option (List String)) :=
  if name = "CreateAccountResult" then Except.ok none
  else if name = "InviteAccountToOrganization" then Except.ok none
  else if name = "EnableOptInRegion" then do
    let rs ← get_region_opt_in_regions e
    pure (some rs)
  else Except.error PyErr.keyError

/-- Translation of `parse_event` with its three strategy dicts. -/
def parse_event (e : Event) : Except PyErr EventData := do
  let eventName ← event_name_strategy e
  let accountId ← account_id_strategy eventName e
  let regions ← regions_strategy eventName e
  pure { accountId := accountId, regions := regions }

/-- Region resolution in the delete utility's `main`:
`regions = regions or get_regions(assumed_role_session)` — the described
regions are used when the supplied value is `None` or an empty (falsy)
list. -/
def effectiveRegions (regions : Option (List String)) (described : List String) :
    List String :=
  match regions with
  | some rs => if rs.isEmpty then described else rs
  | none => described

/-- Translation of the create utility's `get_regions`: with `--debug` a
single hard-coded region per partition, otherwise the full
`describe_regions` result. -/
def get_regions_script (debug : Bool) (partitionName : String)
    (described : List String) : List String :=
  if debug then
    (if partitionName = "aws" then ["us-east-1"] else ["us-gov-west-1"])
  else described

/-- Result of the region loop of the create utility's `main`: the regions
actually examined, the regions for which a `create_vpc` task was submitted,
and the process exit code (`some 1` models `sys.exit(1)`). -/
structure CreateRunResult where
  checked : List String
  submitted : List String
  exitCode : Option Nat
deriving Repr, DecidableEq

/-- Translation of the region loop of the create utility's `main`: fetching a
region's default VPC ids inside the loop is wrapped in `try/except
Boto3Error` whose handler prints and calls `sys.exit(1)`, ending the run; on
success a `create_vpc` task is submitted exactly when the id list is empty. -/
def create_main_loop (fetch : String → Except String (List String)) :
    List String → CreateRunResult
  | [] => { checked := [], submitted := [], exitCode := none }
  | r :: rest =>
    match fetch r with
    | Except.error _ => { checked := [r], submitted := [], exitCode := some 1 }
    | Except.ok ids =>
      let tail := create_main_loop fetch rest
      { checked := r :: tail.checked
        submitted := (if ids.isEmpty then [r] else []) ++ tail.submitted
        exitCode := tail.exitCode }

/-- Translation of the create utility's `create_vpc`: the call to
`create_default_vpc` is wrapped in `try/except Exception`, so the function
always returns, printing either the created VPC line or the exception.  The
result is the list of printed lines. -/
def create_vpc (dryRun : Bool) (apiResult : Except String (String × Bool)) :
    List String :=
  ("Create default VPC dry_run=" ++ (if dryRun then "True" else "False")) ::
    (match apiResult with
     | Except.ok p =>
       ["Created VPC id " ++ p.1 ++ " " ++ (if p.2 then "True" else "False")]
     | Except.error exc => [exc])

/-- State of one region of the account: the VPCs that exist there. -/
abbrev RegionState := List Vpc

/-- Translation of `get_default_vpc_ids` against the region state: the ids
of the VPCs matching the `isDefault` filter of `describe_vpcs`. -/
def get_default_vpc_ids (s : RegionState) : List String :=
  (s.filter (fun v => v.isDefault)).map (fun v => v.vpcId)

/-- Modelled from the spec: the effect on a VPC of a successful
`DeleteInternetGateway` for each gateway `del_igw` targets (AWS-side
semantics of the delete call, not repository code). -/
def del_igw_effect (v : Vpc) : Vpc :=
  { v with igws := [] }

/-- Modelled from the spec: the effect of `del_sub`'s successful
`DeleteSubnet` calls — the subnets with `default_for_az` set are removed. -/
def del_sub_effect (v : Vpc) : Vpc :=
  { v with subnets := v.subnets.filter (fun s => !s.defaultForAz) }

/-- Modelled from the spec: the effect of `del_rtb`'s successful
`DeleteRouteTable` calls — exactly the route tables whose delete the code
invokes are removed; a raised `IndexError` occurs before any delete, leaving
the state unchanged. -/
def del_rtb_effect (v : Vpc) : Vpc :=
  match del_rtb v with
  | Except.error _ => v
  | Except.ok deleted =>
    { v with routeTables :=
        v.routeTables.filter (fun r => !(deleted.contains r.rtbId)) }

/-- Modelled from the spec: the effect of `del_acl`'s successful
`DeleteNetworkAcl` calls — the non-default ACLs are removed. -/
def del_acl_effect (v : Vpc) : Vpc :=
  { v with acls := v.acls.filter (fun a => a.isDefault) }

/-- Modelled from the spec: the effect of `del_sgp`'s successful
`DeleteSecurityGroup` calls — the groups not named `default` are removed. -/
def del_sgp_effect (v : Vpc) : Vpc :=
  { v with securityGroups :=
      v.securityGroups.filter (fun g => g.groupName == "default") }

/-- Resource teardown of one VPC, steps 1–5 of `del_vpc_all` applied in
order (with every AWS delete succeeding). -/
def teardownResources (v : Vpc) : Vpc :=
  del_sgp_effect (del_acl_effect (del_rtb_effect (del_sub_effect (del_igw_effect v))))

/-- Effect of one complete `del_vpc_all` call on the region state: the VPC's
resources are torn down and the final `DeleteVpc` (step 6) removes the VPC
itself. -/
def del_vpc_all_effect (s : RegionState) (vid : String) : RegionState :=
  (s.map (fun v => if v.vpcId == vid then teardownResources v else v)).filter
    (fun v => v.vpcId != vid)

/-- The whole per-region delete operation: fetch the default VPC ids and run
`del_vpc_all` for each of them. -/
def region_delete (s : RegionState) : RegionState :=
  (get_default_vpc_ids s).foldl del_vpc_all_effect s

/-- The `Main` flag of the first entry of an association list (`false` on an
empty list) — the only thing the guard of `del_rtb` can ever look at. -/
def firstMain : List RtbAssoc → Bool
  | a :: _ => a.main
  | [] => false

/-- First-association `Main` flag of a route table. -/
def firstAssocMain (r : RouteTable) : Bool :=
  firstMain r.associationsAttribute

/-- Stated from the spec's words, for comparison with the code: the AWS
notion of a VPC's main route tables — those having an association whose
`Main` flag is set. -/
def mainRouteTableIds (v : Vpc) : List String :=
  (v.routeTables.filter (fun r => r.associationsAttribute.any (fun a => a.main))).map
    (fun r => r.rtbId)

/-- Concrete default VPC holding its main route table (first association has
`Main` set) and one extra non-main route table. -/
def twoRtbVpc : Vpc :=
  { vpcId := "vpc-1"
    isDefault := true
    igws := []
    subnets := []
    routeTables :=
      [{ rtbId := "rtb-main"
         associationsAttribute := [{ main := true, routeTableId := "rtb-main" }] },
       { rtbId := "rtb-extra"
         associationsAttribute := [{ main := false, routeTableId := "rtb-extra" }] }]
    acls := []
    securityGroups := [] }

/-- Concrete VPC whose single route table is the main route table, but whose
`Main` association is listed second, after a subnet association. -/
def lateMainVpc : Vpc :=
  { vpcId := "vpc-2"
    isDefault := true
    igws := []
    subnets := []
    routeTables :=
      [{ rtbId := "rtb-m"
         associationsAttribute :=
           [{ main := false, routeTableId := "rtb-m" },
            { main := true, routeTableId := "rtb-m" }] }]
    acls := []
    securityGroups := [] }

/-- Concrete VPC with a route table whose `associations_attribute` is the
empty list. -/
def emptyAssocVpc : Vpc :=
  { vpcId := "vpc-3"
    isDefault := true
    igws := []
    subnets := []
    routeTables := [{ rtbId := "rtb-n", associationsAttribute := [] }]
    acls := []
    securityGroups := [] }

/-- Concrete VPC on which `del_rtb` is total: the only route table carries a
nonempty association list; it also holds default and non-default ACLs and
security groups. -/
def goodAssocVpc : Vpc :=
  { vpcId := "vpc-4"
    isDefault := true
    igws := []
    subnets := []
    routeTables :=
      [{ rtbId := "rtb-g"
         associationsAttribute := [{ main := true, routeTableId := "rtb-g" }] }]
    acls := [{ aclId := "acl-d", isDefault := true },
             { aclId := "acl-x", isDefault := false }]
    securityGroups := [{ sgpId := "sg-d", groupName := "default" },
                       { sgpId := "sg-x", groupName := "web" }] }

/-- Concrete fetch outcome for the create utility: retrieving the default
VPCs of `us-east-1` raises a `Boto3Error`, every other region reports no
default VPC. -/
def failingFetch : String → Except String (List String) :=
  fun r =>
    if r = "us-east-1" then Except.error "ConnectTimeoutError" else Except.ok []

/-- Concrete Region Opt-In lambda event. -/
def optInEvent : Event :=
  { detailType := "Region Opt-In Status Change"
    account := some "111111111111"
    detail :=
      { eventName := none
        regionName := some "ap-east-1"
        accountId := some "222222222222"
        createAccountId := none
        inviteTargetId := none } }

/-- Concrete region list for the delete utility: the first region's
`get_default_vpc_ids` raises, the second yields one default VPC. -/
def mixedRegions : List RegionFetch :=
  [{ region := "r1", fetch := Except.error "AccessDenied" },
   { region := "r2", fetch := Except.ok ["vpc-9"] }]

/-- Concrete step outcomes making every teardown step fail with the same
rendered exception. -/
def allFailOutcome : String → String → StepOutcome :=
  fun _ _ _ => Except.error "UnauthorizedOperation"

theorem strJoin_infix (sep e : String) :
    ∀ l : List String, e ∈ l → ∃ p q, strJoin sep l = p ++ (e ++ q)
  | [], h => absurd h (List.not_mem_nil e)
  | [s], h => by
      have he : e = s := by simpa using h
      subst he
      exact ⟨"", "", by
        simp [strJoin, String.empty_append, String.append_empty]⟩
  | s :: s2 :: t, h => by
      rcases List.mem_cons.mp h with he | h2
      · subst he
        refine ⟨"", sep ++ strJoin sep (s2 :: t), ?_⟩
        simp [strJoin, String.empty_append, String.append_assoc]
      · obtain ⟨p, q, hJ⟩ := strJoin_infix sep e (s2 :: t) h2
        refine ⟨(s ++ sep) ++ p, q, ?_⟩
        simp [strJoin, hJ, String.append_assoc]

theorem mem_fetchErrors (accountId : String) :
    ∀ (regions : List RegionFetch) (rf : RegionFetch), rf ∈ regions →
      ∀ exc, rf.fetch = Except.error exc →
        convert_exception_to_string accountId rf.region "lambda_handler"
            (some "Error: Error getting vpc resource") exc
          ∈ fetchErrors accountId regions
  | [], rf, h, _, _ => absurd h (List.not_mem_nil rf)
  | r :: rest, rf, h, exc, hexc => by
      rcases List.mem_cons.mp h with he | hm
      · subst he
        simp [fetchErrors, hexc]
      · have ih := mem_fetchErrors accountId rest rf hm exc hexc
        cases hf : r.fetch <;> simp [fetchErrors, hf, ih]

theorem mem_futureErrors (vpcOutcome : String → String → StepOutcome)
    (accountId : String) :
    ∀ (tasks : List (String × String)) (t : String × String), t ∈ tasks →
      ∀ e, (del_vpc_all (vpcOutcome t.1 t.2) accountId t.1 t.2).result
          = Except.error e →
        e ∈ futureErrors vpcOutcome accountId tasks
  | [], t, h, _, _ => absurd h (List.not_mem_nil t)
  | u :: rest, t, h, e, he => by
      rcases List.mem_cons.mp h with ht | hm
      · subst ht
        simp [futureErrors, he]
      · have ih := mem_futureErrors vpcOutcome accountId rest t hm e he
        cases hr : (del_vpc_all (vpcOutcome u.1 u.2) accountId u.1 u.2).result <;>
          simp [futureErrors, hr, ih]

theorem submittedTasks_eq : ∀ regions : List RegionFetch,
    submittedTasks regions = regions.flatMap (fun rf =>
      match rf.fetch with
      | Except.ok ids => ids.map (fun v => (rf.region, v))
      | Except.error _ => [])
  | [] => rfl
  | rf :: rest => by
      simp [submittedTasks, List.flatMap_cons, submittedTasks_eq rest]

theorem mainAssocIds_error_of_mem :
    ∀ ls : List (List RtbAssoc), [] ∈ ls →
      mainAssocIds ls = Except.error PyErr.indexError
  | [], h => absurd h (List.not_mem_nil [])
  | l :: rest, h => by
      cases l with
      | nil => rfl
      | cons a t =>
        have hm : [] ∈ rest := by
          rcases List.mem_cons.mp h with he | hm
          · exact absurd he.symm (List.cons_ne_nil a t)
          · exact hm
        have ih := mainAssocIds_error_of_mem rest hm
        show (mainAssocIds rest >>= fun tail =>
          if a.main then pure (a.routeTableId :: tail) else pure tail)
            = Except.error PyErr.indexError
        rw [ih]
        rfl

theorem mainAssocIds_isOk :
    ∀ ls : List (List RtbAssoc), (∀ l ∈ ls, l ≠ []) →
      ∃ ids, mainAssocIds ls = Except.ok ids ∧
        (ids = [] ↔ ∀ l ∈ ls, firstMain l = false)
  | [], _ => ⟨[], rfl, by simp⟩
  | l :: rest, h => by
      obtain ⟨ids, hok, hiff⟩ :=
        mainAssocIds_isOk rest (fun x hx => h x (List.mem_cons_of_mem l hx))
      cases l with
      | nil => exact absurd rfl (h [] (List.mem_cons_self [] rest))
      | cons a t =>
        have hbind : mainAssocIds ((a :: t) :: rest)
            = (mainAssocIds rest >>= fun tail =>
                if a.main then pure (a.routeTableId :: tail) else pure tail) := rfl
        by_cases ha : a.main = true
        · refine ⟨a.routeTableId :: ids, ?_, ?_⟩
          · rw [hbind, hok]
            simp [ha]
          · simp [firstMain, ha]
        · have ha' : a.main = false := by
            cases hm : a.main
            · rfl
            · exact absurd hm ha
          refine ⟨ids, ?_, ?_⟩
          · rw [hbind, hok]
            simp [ha']
          · rw [hiff]
            simp [firstMain, ha']

theorem delRtbLoop_ok (ids : List String) :
    ∀ rtbs : List RouteTable,
      delRtbLoop (Except.ok ids) rtbs
        = Except.ok (if ids.isEmpty then rtbs.map (fun r => r.rtbId) else [])
  | [] => by cases ids <;> simp [delRtbLoop]
  | rtb :: rest => by
      have ih := delRtbLoop_ok ids rest
      show ((Except.ok ids : Except PyErr (List String)) >>= fun i =>
        delRtbLoop (Except.ok ids) rest >>= fun tail =>
          if i.isEmpty then pure (rtb.rtbId :: tail) else pure tail)
        = Except.ok (if ids.isEmpty then (rtb :: rest).map (fun r => r.rtbId) else [])
      rw [show ((Except.ok ids : Except PyErr (List String)) >>= fun i =>
        delRtbLoop (Except.ok ids) rest >>= fun tail =>
          if i.isEmpty then pure (rtb.rtbId :: tail) else pure tail)
        = (delRtbLoop (Except.ok ids) rest >>= fun tail =>
            if ids.isEmpty then pure (rtb.rtbId :: tail) else pure tail) from rfl, ih]
      cases hi : ids.isEmpty <;> simp [hi]

theorem delRtbLoop_error (e : PyErr) (rtb : RouteTable) (rest : List RouteTable) :
    delRtbLoop (Except.error e) (rtb :: rest) = Except.error e := rfl

theorem del_rtb_error_of_empty_assoc (v : Vpc)
    (h : ∃ r ∈ v.routeTables, r.associationsAttribute = []) :
    del_rtb v = Except.error PyErr.indexError := by
  obtain ⟨r, hr, hempty⟩ := h
  have hmem : [] ∈ v.routeTables.map (fun r => r.associationsAttribute) :=
    List.mem_map.mpr ⟨r, hr, hempty⟩
  have herr := mainAssocIds_error_of_mem _ hmem
  cases hrt : v.routeTables with
  | nil => rw [hrt] at hr; exact absurd hr (List.not_mem_nil r)
  | cons r0 rest =>
    unfold del_rtb
    rw [hrt] at herr ⊢
    rw [herr]
    exact delRtbLoop_error _ r0 rest

theorem del_rtb_effect_vpcId (v : Vpc) : (del_rtb_effect v).vpcId = v.vpcId := by
  unfold del_rtb_effect
  cases del_rtb v <;> rfl

theorem del_rtb_effect_isDefault (v : Vpc) :
    (del_rtb_effect v).isDefault = v.isDefault := by
  unfold del_rtb_effect
  cases del_rtb v <;> rfl

theorem teardown_vpcId (v : Vpc) : (teardownResources v).vpcId = v.vpcId := by
  show (del_rtb_effect (del_sub_effect (del_igw_effect v))).vpcId = v.vpcId
  rw [del_rtb_effect_vpcId]
  rfl

theorem teardown_isDefault (v : Vpc) :
    (teardownResources v).isDefault = v.isDefault := by
  show (del_rtb_effect (del_sub_effect (del_igw_effect v))).isDefault = v.isDefault
  rw [del_rtb_effect_isDefault]
  rfl

theorem mem_del_vpc_all_effect {s : RegionState} {vid : String} {v : Vpc}
    (h : v ∈ del_vpc_all_effect s vid) :
    v.vpcId ≠ vid ∧ ∃ u ∈ s, v.vpcId = u.vpcId ∧ v.isDefault = u.isDefault := by
  unfold del_vpc_all_effect at h
  obtain ⟨hm, hne⟩ := List.mem_filter.mp h
  obtain ⟨u, hu, heq⟩ := List.mem_map.mp hm
  refine ⟨by simpa [bne_iff_ne] using hne, u, hu, ?_⟩
  cases hc : (u.vpcId == vid) with
  | true =>
    rw [if_pos (by rw [hc])] at heq
    rw [← heq]
    exact ⟨teardown_vpcId u, teardown_isDefault u⟩
  | false =>
    rw [if_neg (by rw [hc]; exact Bool.false_ne_true)] at heq
    rw [← heq]
    exact ⟨rfl, rfl⟩

theorem mem_foldl_del :
    ∀ (ids : List String) (s : RegionState) (v : Vpc),
      v ∈ List.foldl del_vpc_all_effect s ids →
      v.vpcId ∉ ids ∧ ∃ u ∈ s, v.vpcId = u.vpcId ∧ v.isDefault = u.isDefault
  | [], s, v, h => ⟨List.not_mem_nil _, ⟨v, h, rfl, rfl⟩⟩
  | i :: is, s, v, h => by
      have h' : v ∈ List.foldl del_vpc_all_effect (del_vpc_all_effect s i) is := h
      obtain ⟨hnotin, u, hu, hid, hdef⟩ := mem_foldl_del is _ v h'
      obtain ⟨hne, w, hw, hid2, hdef2⟩ := mem_del_vpc_all_effect hu
      refine ⟨?_, w, hw, hid.trans hid2, hdef.trans hdef2⟩
      intro hmem
      rcases List.mem_cons.mp hmem with he | hm
      · exact hne (by rw [← hid]; exact he)
      · exact hnotin hm

theorem get_default_vpc_ids_region_delete (s : RegionState) :
    get_default_vpc_ids (region_delete s) = [] := by
  have hfil : (region_delete s).filter (fun v => v.isDefault) = [] := by
    rw [List.filter_eq_nil_iff]
    intro v hv hdef
    obtain ⟨hnotin, u, hu, hid, hdefeq⟩ := mem_foldl_del _ _ _ hv
    apply hnotin
    rw [hid]
    exact List.mem_map.mpr ⟨u, List.mem_filter.mpr ⟨hu, by rw [← hdefeq]; exact hdef⟩, rfl⟩
  unfold get_default_vpc_ids
  rw [hfil]
  rfl

theorem create_main_loop_ok (fetch : String → Except String (List String)) :
    ∀ rs : List String, (∀ r ∈ rs, ∃ ids, fetch r = Except.ok ids) →
      create_main_loop fetch rs =
        { checked := rs
          submitted := rs.filter (fun r =>
            match fetch r with
            | Except.ok ids => ids.isEmpty
            | Except.error _ => false)
          exitCode := none }
  | [], _ => rfl
  | r :: rest, h => by
      obtain ⟨ids, hids⟩ := h r (List.mem_cons_self r rest)
      have ih := create_main_loop_ok fetch rest
        (fun x hx => h x (List.mem_cons_of_mem r hx))
      cases hi : ids.isEmpty <;>
        simp [create_main_loop, hids, ih, List.filter_cons, hi]

theorem create_main_loop_exit (fetch : String → Except String (List String)) :
    ∀ rs : List String, (∃ r ∈ rs, ∃ e, fetch r = Except.error e) →
      (create_main_loop fetch rs).exitCode = some 1
  | [], h => by simp at h
  | r :: rest, h => by
      cases hf : fetch r with
      | error e => simp [create_main_loop, hf]
      | ok ids =>
        have hrest : ∃ x ∈ rest, ∃ e, fetch x = Except.error e := by
          obtain ⟨x, hx, e, he⟩ := h
          rcases List.mem_cons.mp hx with hxr | hxm
          · rw [hxr, hf] at he
            exact absurd he (by simp)
          · exact ⟨x, hxm, e, he⟩
        have ih := create_main_loop_exit fetch rest hrest
        simp [create_main_loop, hf, ih]

theorem regions_strategy_shape (name : String) (e : Event)
    (v : Option (List String)) (h : regions_strategy name e = Except.ok v) :
    v = none ∨ ∃ r, v = some [r] := by
  unfold regions_strategy at h
  split_ifs at h
  · exact Or.inl (Except.ok.inj h).symm
  · exact Or.inl (Except.ok.inj h).symm
  · cases hr : e.detail.regionName with
    | none =>
      have h2 : (Except.error PyErr.keyError : Except PyErr (Option (List String)))
          = Except.ok v := by
        rw [show get_region_opt_in_regions e = Except.error PyErr.keyError by
          unfold get_region_opt_in_regions getOrKeyError
          rw [hr]
          rfl] at h
        exact h
      cases h2
    | some r =>
      have h2 : (Except.ok (some [r]) : Except PyErr (Option (List String)))
          = Except.ok v := by
        rw [show get_region_opt_in_regions e = Except.ok [r] by
          unfold get_region_opt_in_regions getOrKeyError
          rw [hr]
          rfl] at h
        exact h
      exact Or.inr ⟨r, (Except.ok.inj h2).symm⟩

theorem parse_event_regions (e : Event) (d : EventData)
    (h : parse_event e = Except.ok d) :
    d.regions = none ∨ ∃ r, d.regions = some [r] := by
  unfold parse_event at h
  cases h1 : event_name_strategy e with
  | error x => rw [h1] at h; cases h
  | ok n =>
    rw [h1] at h
    have h' : (account_id_strategy n e >>= fun accountId =>
        regions_strategy n e >>= fun regions =>
          pure { accountId := accountId, regions := regions }
        : Except PyErr EventData) = Except.ok d := h
    cases h2 : account_id_strategy n e with
    | error x => rw [h2] at h'; cases h'
    | ok a =>
      rw [h2] at h'
      have h'' : (regions_strategy n e >>= fun regions =>
          pure { accountId := a, regions := regions }
          : Except PyErr EventData) = Except.ok d := h'
      cases h3 : regions_strategy n e with
      | error x => rw [h3] at h''; cases h''
      | ok v =>
        rw [h3] at h''
        have h4 : ({ accountId := a, regions := v } : EventData) = d :=
          Except.ok.inj h''
        rw [← h4]
        exact regions_strategy_shape n e v h3

/-- C1: in the delete utility, a failing teardown step or a failing
per-region default-VPC fetch is converted to a string and collected in the
exception list, while every region's fetched VPCs are still submitted for
processing regardless of failures elsewhere — no exception aborts the run
before all regions and VPCs have been attempted. -/
theorem c1_partial_failure_isolation
    (vpcOutcome : String → String → StepOutcome) (accountId : String)
    (regions : List RegionFetch) :
    submittedTasks regions = regions.flatMap (fun rf =>
      match rf.fetch with
      | Except.ok ids => ids.map (fun v => (rf.region, v))
      | Except.error _ => []) ∧
    (∀ rf ∈ regions, ∀ exc, rf.fetch = Except.error exc →
      convert_exception_to_string accountId rf.region "lambda_handler"
          (some "Error: Error getting vpc resource") exc
        ∈ concurrently_delete_vpcs vpcOutcome accountId regions) ∧
    (∀ t ∈ submittedTasks regions, ∀ e,
      (del_vpc_all (vpcOutcome t.1 t.2) accountId t.1 t.2).result
          = Except.error e →
      e ∈ concurrently_delete_vpcs vpcOutcome accountId regions) := by
  refine ⟨submittedTasks_eq regions, ?_, ?_⟩
  · intro rf hrf exc hexc
    unfold concurrently_delete_vpcs
    exact List.mem_append_left _ (mem_fetchErrors accountId regions rf hrf exc hexc)
  · intro t ht e he
    unfold concurrently_delete_vpcs
    exact List.mem_append_right _
      (mem_futureErrors vpcOutcome accountId _ t ht e he)

/-- Witness for C1 on a concrete two-region run: the first region's fetch
fails and its converted error string is collected. -/
theorem c1_partial_failure_isolation_witness :
    convert_exception_to_string "acct" "r1" "lambda_handler"
        (some "Error: Error getting vpc resource") "AccessDenied"
      ∈ concurrently_delete_vpcs allFailOutcome "acct" mixedRegions :=
  (c1_partial_failure_isolation allFailOutcome "acct" mixedRegions).2.1
    { region := "r1", fetch := Except.error "AccessDenied" }
    (List.mem_cons_self _ _) "AccessDenied" rfl

/-- C2: `del_vpc_all` attempts the six teardown steps in the fixed order
igw, subnets, route tables, ACLs, security groups, VPC; each step exactly
once, whatever the outcomes of the other steps. -/
theorem c2_fixed_step_order (outcome : StepOutcome)
    (accountId region vpcId : String) :
    (del_vpc_all outcome accountId region vpcId).trace.map Prod.fst
        = stepOrder ∧
    ∀ s : Step,
      ((del_vpc_all outcome accountId region vpcId).trace.map Prod.fst).count s
        = 1 := by
  have htr : (del_vpc_all outcome accountId region vpcId).trace.map Prod.fst
      = stepOrder := by
    simp [del_vpc_all, stepOrder]
  refine ⟨htr, fun s => ?_⟩
  rw [htr]
  cases s <;> rfl

/-- C3 evaluation: on a default VPC with its main route table and one extra
non-main route table, `del_rtb` deletes nothing at all — the guard's list
comprehension shadows the loop variable and tests whether ANY route table's
first association is `Main`, so every iteration hits the `continue`.  The
claim (and the function's own log message) expects the non-main table to be
deleted. -/
theorem c3_route_table_guard_bug : del_rtb twoRtbVpc = Except.ok [] := rfl

/-- C4 counterexample: in the create utility, a `Boto3Error` while
retrieving the first region's default VPCs makes the run call
`sys.exit(1)`; the second region is never processed, contradicting the
claim that a per-region error never aborts the whole run. -/
theorem c4_counterexample :
    create_main_loop failingFetch ["us-east-1", "us-west-2"]
      = { checked := ["us-east-1"], submitted := [], exitCode := some 1 } := rfl

/-- C4 amended: errors raised by `create_default_vpc` inside `create_vpc`
are caught and printed and the remaining regions continue, but an error
while retrieving a region's default VPCs aborts the whole run with exit
status 1. -/
theorem c4_amended_error_policy (fetch : String → Except String (List String))
    (rs : List String) :
    ((∀ r ∈ rs, ∃ ids, fetch r = Except.ok ids) →
      (create_main_loop fetch rs).checked = rs ∧
        (create_main_loop fetch rs).exitCode = none) ∧
    ((∃ r ∈ rs, ∃ e, fetch r = Except.error e) →
      (create_main_loop fetch rs).exitCode = some 1) ∧
    (∀ (dryRun : Bool) (exc : String), create_vpc dryRun (Except.error exc)
      = ["Create default VPC dry_run="
          ++ (if dryRun then "True" else "False"), exc]) := by
  refine ⟨fun h => ?_, create_main_loop_exit fetch rs, fun dryRun exc => rfl⟩
  rw [create_main_loop_ok fetch rs h]
  exact ⟨rfl, rfl⟩

/-- Witness for C4's amended statement: an all-success run completes
normally and a run with a failing fetch exits with status 1. -/
theorem c4_amended_error_policy_witness :
    (create_main_loop (fun _ => Except.ok ["vpc-1"]) ["us-east-1"]).exitCode
        = none ∧
    (create_main_loop failingFetch ["us-east-1"]).exitCode = some 1 :=
  ⟨((c4_amended_error_policy (fun _ => Except.ok ["vpc-1"]) ["us-east-1"]).1
      (fun _ _ => ⟨["vpc-1"], rfl⟩)).2,
   (c4_amended_error_policy failingFetch ["us-east-1"]).2.1
     ⟨"us-east-1", List.mem_cons_self _ _, "ConnectTimeoutError", rfl⟩⟩

/-- C5 counterexample: a Region Opt-In lambda event parses to a single
explicit region, and the delete utility's `regions or get_regions(...)`
then keeps exactly that region instead of the full `DescribeRegions`
set. -/
theorem c5_counterexample :
    parse_event optInEvent
        = Except.ok { accountId := "222222222222"
                      regions := some ["ap-east-1"] } ∧
    effectiveRegions (some ["ap-east-1"]) ["us-east-1", "ap-east-1"]
        = ["ap-east-1"] ∧
    (["ap-east-1"] : List String) ≠ ["us-east-1", "ap-east-1"] :=
  ⟨rfl, rfl, by decide⟩

/-- C5 amended: the full `DescribeRegions` set is used exactly when no
explicit region list is in play — the delete utility uses it when the event
supplies no regions (and any region list a lambda event can supply is a
single opted-in region), and the create utility uses it only without
`--debug`; an explicit nonempty region list wins. -/
theorem c5_amended_region_selection (described : List String) (p r : String)
    (rs : List String) :
    effectiveRegions none described = described ∧
    effectiveRegions (some []) described = described ∧
    effectiveRegions (some (r :: rs)) described = r :: rs ∧
    get_regions_script false p described = described ∧
    (∀ (e : Event) (d : EventData), parse_event e = Except.ok d →
      d.regions = none ∨ ∃ x, d.regions = some [x]) :=
  ⟨rfl, rfl, rfl, rfl, parse_event_regions⟩

/-- Witness for C5's amended statement at the concrete opt-in event. -/
theorem c5_amended_region_selection_witness :
    ({ accountId := "222222222222"
       regions := some ["ap-east-1"] } : EventData).regions = none ∨
    ∃ x, ({ accountId := "222222222222"
            regions := some ["ap-east-1"] } : EventData).regions = some [x] :=
  (c5_amended_region_selection [] "aws" "r" []).2.2.2.2 optInEvent
    { accountId := "222222222222", regions := some ["ap-east-1"] } rfl

/-- C6: the delete utility's `main` raises `DeleteVPCError` exactly when the
run collected at least one error string; the aggregate message carries every
collected string as a substring, and an error-free run returns normally. -/
theorem c6_aggregate_and_raise (vpcOutcome : String → String → StepOutcome)
    (accountId : String) (regions : List RegionFetch) :
    (main_run vpcOutcome accountId regions = Except.ok ()
      ↔ concurrently_delete_vpcs vpcOutcome accountId regions = []) ∧
    (concurrently_delete_vpcs vpcOutcome accountId regions ≠ [] →
      main_run vpcOutcome accountId regions
        = Except.error ("All Exceptions encountered:\r\r"
            ++ strJoin "\r\r "
                (concurrently_delete_vpcs vpcOutcome accountId regions)
            ++ "\r\r")) ∧
    (∀ e ∈ concurrently_delete_vpcs vpcOutcome accountId regions, ∃ p q,
      "All Exceptions encountered:\r\r"
          ++ strJoin "\r\r "
              (concurrently_delete_vpcs vpcOutcome accountId regions)
          ++ "\r\r"
        = p ++ (e ++ q)) := by
  refine ⟨?_, ?_, ?_⟩
  · show main_raise (concurrently_delete_vpcs vpcOutcome accountId regions)
        = Except.ok () ↔ _
    unfold main_raise
    cases hcc : concurrently_delete_vpcs vpcOutcome accountId regions with
    | nil => simp
    | cons x xs => simp
  · intro hne
    show main_raise (concurrently_delete_vpcs vpcOutcome accountId regions) = _
    unfold main_raise
    cases hcc : concurrently_delete_vpcs vpcOutcome accountId regions with
    | nil => exact absurd hcc hne
    | cons x xs => simp
  · intro e he
    obtain ⟨p, q, hpq⟩ := strJoin_infix "\r\r " e _ he
    refine ⟨"All Exceptions encountered:\r\r" ++ p, q ++ "\r\r", ?_⟩
    rw [hpq]
    simp [String.append_assoc]

/-- Witness for C6 on a concrete run with a failed fetch and a failed
teardown: `main` does not return normally, and the fetch error string is a
substring of the aggregate message. -/
theorem c6_aggregate_and_raise_witness :
    (¬ main_run allFailOutcome "acct" mixedRegions = Except.ok ()) ∧
    (∃ p q,
      "All Exceptions encountered:\r\r"
          ++ strJoin "\r\r "
              (concurrently_delete_vpcs allFailOutcome "acct" mixedRegions)
          ++ "\r\r"
        = p ++ (convert_exception_to_string "acct" "r1" "lambda_handler"
            (some "Error: Error getting vpc resource") "AccessDenied" ++ q)) := by
  constructor
  · intro h
    have h2 := ((c6_aggregate_and_raise allFailOutcome "acct" mixedRegions).1).mp h
    exact absurd h2 (by decide)
  · exact (c6_aggregate_and_raise allFailOutcome "acct" mixedRegions).2.2 _
      (by decide)

/-- C7: when every region's default-VPC retrieval succeeds, the create
utility submits a `create_vpc` task for a region exactly when that region's
default VPC id list is empty; other regions only get the "exists" print. -/
theorem c7_submit_iff_missing (fetch : String → Except String (List String))
    (rs : List String) (h : ∀ r ∈ rs, ∃ ids, fetch r = Except.ok ids) :
    (create_main_loop fetch rs).submitted = rs.filter (fun r =>
      match fetch r with
      | Except.ok ids => ids.isEmpty
      | Except.error _ => false) := by
  rw [create_main_loop_ok fetch rs h]

/-- Witness for C7: with one region lacking a default VPC and one already
having it, only the former is submitted. -/
theorem c7_submit_iff_missing_witness :
    (create_main_loop
        (fun r => if r = "has-vpc" then Except.ok ["vpc-0"] else Except.ok []
          : String → Except String (List String))
        ["no-vpc", "has-vpc"]).submitted = ["no-vpc"] := by
  have h : ∀ r ∈ (["no-vpc", "has-vpc"] : List String), ∃ ids,
      (fun r => if r = "has-vpc" then Except.ok ["vpc-0"] else Except.ok []
        : String → Except String (List String)) r
        = Except.ok ids := by
    intro r hr
    by_cases hc : r = "has-vpc"
    · exact ⟨["vpc-0"], by simp [hc]⟩
    · exact ⟨[], by simp [hc]⟩
  rw [c7_submit_iff_missing _ _ h]
  decide

/-- C8: the per-region delete operation is idempotent — after one pass no
default VPC remains, so a second pass fetches an empty id list and leaves
the region state unchanged. -/
theorem c8_region_delete_idempotent (s : RegionState) :
    region_delete (region_delete s) = region_delete s := by
  have h := get_default_vpc_ids_region_delete s
  calc region_delete (region_delete s)
      = (get_default_vpc_ids (region_delete s)).foldl del_vpc_all_effect
          (region_delete s) := rfl
    _ = ([] : List String).foldl del_vpc_all_effect (region_delete s) := by
        rw [h]
    _ = region_delete s := rfl

/-- C9 counterexample: a VPC whose single route table is its main route
table (it has a `Main` association) but whose `Main` association is listed
second — `del_rtb` only inspects first associations, finds no `Main` there,
and invokes delete on the main route table itself. -/
theorem c9_counterexample :
    del_rtb lateMainVpc = Except.ok ["rtb-m"] ∧
    mainRouteTableIds lateMainVpc = ["rtb-m"] := ⟨rfl, rfl⟩

/-- C9 amended: `del_acl` and `del_sgp` only ever invoke delete on
non-default ACLs and on security groups not named `default`; `del_rtb`,
whenever some route table's FIRST association is the `Main` one (and no
association list is empty), deletes no route table at all — but a main
route table whose `Main` association is not listed first can be deleted. -/
theorem c9_amended_protected_resources (v : Vpc) :
    (∀ i ∈ del_acl v, ∃ a, a ∈ v.acls ∧ a.aclId = i ∧ a.isDefault = false) ∧
    (∀ i ∈ del_sgp v, ∃ g, g ∈ v.securityGroups ∧ g.sgpId = i ∧
      g.groupName ≠ "default") ∧
    ((∀ r ∈ v.routeTables, r.associationsAttribute ≠ []) →
      (∃ r ∈ v.routeTables, firstAssocMain r = true) →
      del_rtb v = Except.ok []) := by
  refine ⟨?_, ?_, ?_⟩
  · intro i hi
    obtain ⟨a, ha, rfl⟩ := List.mem_map.mp hi
    obtain ⟨ham, hnd⟩ := List.mem_filter.mp ha
    exact ⟨a, ham, rfl, by simpa using hnd⟩
  · intro i hi
    obtain ⟨g, hg, rfl⟩ := List.mem_map.mp hi
    obtain ⟨hgm, hnd⟩ := List.mem_filter.mp hg
    exact ⟨g, hgm, rfl, by simpa [bne_iff_ne] using hnd⟩
  · intro hne hex
    have hml : ∀ l ∈ v.routeTables.map (fun r => r.associationsAttribute),
        l ≠ [] := by
      intro l hl
      obtain ⟨r, hr, rfl⟩ := List.mem_map.mp hl
      exact hne r hr
    obtain ⟨ids, hok, hiff⟩ := mainAssocIds_isOk _ hml
    have hidsne : ids ≠ [] := by
      intro h0
      obtain ⟨r, hr, hfm⟩ := hex
      have hall := (hiff.mp h0) r.associationsAttribute
        (List.mem_map.mpr ⟨r, hr, rfl⟩)
      unfold firstAssocMain at hfm
      rw [hfm] at hall
      exact Bool.noConfusion hall
    have hie : ids.isEmpty = false := by
      cases ids with
      | nil => exact absurd rfl hidsne
      | cons x xs => rfl
    unfold del_rtb
    rw [hok, delRtbLoop_ok, hie]
    rfl

/-- Witness for C9's amended statement on a concrete VPC with a default and
a non-default ACL and a first-position `Main` association. -/
theorem c9_amended_protected_resources_witness :
    (∃ a, a ∈ goodAssocVpc.acls ∧ a.aclId = "acl-x" ∧ a.isDefault = false) ∧
    del_rtb goodAssocVpc = Except.ok [] :=
  ⟨(c9_amended_protected_resources goodAssocVpc).1 "acl-x" (by decide),
   (c9_amended_protected_resources goodAssocVpc).2.2 (by decide) (by decide)⟩

/-- C10: `del_rtb` raises `IndexError` exactly when some route table of the
VPC has an empty `associations_attribute` (the comprehension indexes
`rtb_ass[0]` for every table); with all association lists nonempty it
returns normally; and a `del_rtb` failure inside `del_vpc_all` is recorded
in the exception list as its processed error string. -/
theorem c10_del_rtb_totality (v : Vpc) :
    ((∃ r ∈ v.routeTables, r.associationsAttribute = []) →
      del_rtb v = Except.error PyErr.indexError) ∧
    ((∀ r ∈ v.routeTables, r.associationsAttribute ≠ []) →
      ∃ ids, del_rtb v = Except.ok ids) ∧
    (∀ (outcome : StepOutcome) (a r vid exc : String),
      outcome Step.rtb = Except.error exc →
      process_exception a r "del_rtb" exc
        ∈ (del_vpc_all outcome a r vid).exceptions) := by
  refine ⟨del_rtb_error_of_empty_assoc v, fun h => ?_, ?_⟩
  · have hml : ∀ l ∈ v.routeTables.map (fun r => r.associationsAttribute),
        l ≠ [] := by
      intro l hl
      obtain ⟨r, hr, rfl⟩ := List.mem_map.mp hl
      exact h r hr
    obtain ⟨ids, hok, _⟩ := mainAssocIds_isOk _ hml
    unfold del_rtb
    rw [hok, delRtbLoop_ok]
    exact ⟨_, rfl⟩
  · intro outcome a r vid exc hexc
    have ht : tryStep outcome a r Step.rtb
        = [process_exception a r "del_rtb" exc] := by
      unfold tryStep
      rw [hexc]
      rfl
    simp [del_vpc_all, ht]

/-- Witness for C10: the empty-association VPC raises `IndexError`, the
well-formed VPC returns normally, and a failing rtb step's string lands in
`del_vpc_all`'s exception list. -/
theorem c10_del_rtb_totality_witness :
    del_rtb emptyAssocVpc = Except.error PyErr.indexError ∧
    (∃ ids, del_rtb goodAssocVpc = Except.ok ids) ∧
    process_exception "acct" "reg" "del_rtb" "boom"
      ∈ (del_vpc_all (fun _ => Except.error "boom") "acct" "reg"
          "vpc-x").exceptions :=
  ⟨(c10_del_rtb_totality emptyAssocVpc).1
      ⟨{ rtbId := "rtb-n", associationsAttribute := [] },
        List.mem_cons_self _ _, rfl⟩,
   (c10_del_rtb_totality goodAssocVpc).2.1 (by decide),
   (c10_del_rtb_totality goodAssocVpc).2.2 (fun _ => Except.error "boom")
     "acct" "reg" "vpc-x" "boom" rfl⟩

end DeleteDefaultVpc
